import Mathlib

/-!
Verification of the Query Execution & Tabular Synchronization Engine of the
vs-code-postgres extension: a shallow embedding of the query runner
(`queryRunner.ts`), the data-editor change compiler (`dataEditorPanel.ts`
webview script) and the table snapshot loader / write-back runner
(`openTableService.ts`), together with theorems settling the specified
properties.
-/

namespace VsCodePostgres

/-! ## JavaScript value model

Cell values flowing through the runner are JS values; for the properties at
hand we need to distinguish `null`, strings, and non-string values. -/

inductive JsValue where
  | nullV
  | str (s : String)
  | num (n : Int)
deriving DecidableEq, Repr

/-- A JS record (row object): association list from column name to value;
a missing key models `undefined`. -/
abbrev JsRow := List (String × JsValue)

/-- JS property lookup (`row[key]`): `none` models `undefined`. -/
def jsLookup (row : JsRow) (key : String) : Option JsValue :=
  match row.find? (fun entry => entry.1 == key) with
  | some entry => some entry.2
  | none => none

/-- A raw thrown JS error: either an object carrying the optional
`message` / `detail` / `code` / `position` properties, or any non-object. -/
inductive JsError where
  | obj (message detail code position : Option String)
  | nonObj
deriving DecidableEq, Repr

/-! ## Query runner (`queryRunner.ts`) -/

/-- The result shape returned by `pg`'s `client.query`. -/
structure EngineResult where
  fields : List String
  rows : List JsRow
  rowCount : Option Int
deriving DecidableEq, Repr

structure QueryErrorInfo where
  message : String
  detail : Option String
  code : Option String
  position : Option String
deriving DecidableEq, Repr

structure QueryExecutionResult where
  sql : String
  columns : List String
  rows : List JsRow
  rowCount : Option Int
  durationMs : Nat
  truncated : Bool
  cancelled : Bool
  error : Option QueryErrorInfo
deriving DecidableEq, Repr

def DEFAULT_ROW_LIMIT : Nat := 10000

def CANCELED_ERROR_CODE : String := "57014"

/-- `normalizeError` of `queryRunner.ts`. -/
def normalizeError : JsError → QueryErrorInfo
  | .obj message detail code position =>
      { message := message.getD "Unknown error"
        detail := detail
        code := code
        position := position }
  | .nonObj => { message := "Unknown error", detail := none, code := none, position := none }

/-- The value the promise built by `runCancelableQuery` resolves to, as a
function of the local `canceled` flag at the time the statement settles and
of the statement's outcome (`outcome` also covers a failing `pool.connect`,
which lands in the same `catch` branch). -/
def runCancelableQueryResult (sql : String) (durationMs : Nat) (canceled : Bool)
    (outcome : Except JsError EngineResult) (rowLimit : Nat) : QueryExecutionResult :=
  match outcome with
  | .ok result =>
      let columns := result.fields
      if result.rows.length > rowLimit then
        { sql := sql, columns := columns, rows := result.rows.take rowLimit
          rowCount := result.rowCount, durationMs := durationMs
          truncated := true, cancelled := false, error := none }
      else
        { sql := sql, columns := columns, rows := result.rows
          rowCount := result.rowCount, durationMs := durationMs
          truncated := false, cancelled := false, error := none }
  | .error error =>
      let normalized := normalizeError error
      let cancelled := canceled || normalized.code == some CANCELED_ERROR_CODE
      let message := if cancelled then "Query cancelled." else normalized.message
      { sql := sql, columns := [], rows := [], rowCount := none
        durationMs := durationMs, truncated := false, cancelled := cancelled
        error := some { normalized with message := message } }

/-- `cancel()` of `runCancelableQuery`: its returned boolean (dispatch
success) as a function of the client checkout outcome (with the client's
`processID`, where `none` or `some 0` are both falsy in JS) and of the
out-of-band `pool.query` dispatch outcome. -/
def cancelDispatchResult (clientOutcome : Except JsError (Option Nat))
    (poolQueryOutcome : Except JsError Unit) : Bool :=
  match clientOutcome with
  | .error _ => false
  | .ok pid =>
      match pid with
      | none => false
      | some 0 => false
      | some _ =>
          match poolQueryOutcome with
          | .error _ => false
          | .ok _ => true

/-- Concrete engine results used as witnesses. -/
def emptyEngineResult : EngineResult :=
  { fields := [], rows := [], rowCount := some 0 }

def fiveRowEngineResult : EngineResult :=
  { fields := ["id"]
    rows := [[("id", JsValue.num 1)], [("id", JsValue.num 2)], [("id", JsValue.num 3)],
             [("id", JsValue.num 4)], [("id", JsValue.num 5)]]
    rowCount := some 5 }

def badQueryError : JsError :=
  JsError.obj (some "Bad query") (some "missing relation") (some "42P01") none

/-! ## Data editor grid and change compiler (`dataEditorPanel.ts` webview script) -/

structure EditorRow where
  values : List String
  nulls : List Bool
deriving DecidableEq, Repr

structure DataEditorCellUpdate where
  columnIndex : Nat
  value : String
  isNull : Bool
deriving DecidableEq, Repr

inductive DataEditorChange where
  | update (rowIndex : Nat) (updates : List DataEditorCellUpdate)
  | insert (values : List DataEditorCellUpdate)
deriving DecidableEq, Repr

/-- A working grid row: mutable copy of a baseline row or a new shell row. -/
structure WorkingRow where
  values : List String
  nulls : List Bool
  isNew : Bool
deriving DecidableEq, Repr

/-- The clone the webview makes of each loaded row
(`originalRows.map(row => ({values: [...], nulls: [...], isNew: false}))`). -/
def cloneRow (row : EditorRow) : WorkingRow :=
  { values := row.values, nulls := row.nulls, isNew := false }

/-- `createEmptyRow()` of the webview script. -/
def createEmptyRow (columns : List String) : WorkingRow :=
  { values := columns.map (fun _ => "")
    nulls := columns.map (fun _ => false)
    isNew := true }

/-- `row.values[columnIndex] ?? ""`. -/
def cellValueAt (values : List String) (columnIndex : Nat) : String :=
  values.getD columnIndex ""

/-- `row.nulls[columnIndex] === true` (an absent entry is `undefined`, which
compares unequal to `true`). -/
def cellNullAt (nulls : List Bool) (columnIndex : Nat) : Bool :=
  nulls.getD columnIndex false

/-- `isCellDirty(rowIndex, columnIndex)` of the webview script. -/
def isCellDirty (originalRows : List EditorRow) (workingRows : List WorkingRow)
    (rowIndex columnIndex : Nat) : Bool :=
  match workingRows[rowIndex]? with
  | none => false
  | some row =>
    let value := cellValueAt row.values columnIndex
    let isNull := cellNullAt row.nulls columnIndex
    if row.isNew then isNull || value != "" else
    match originalRows[rowIndex]? with
    | none => isNull || value != ""
    | some originalRow =>
      let originalValue := cellValueAt originalRow.values columnIndex
      let originalNull := cellNullAt originalRow.nulls columnIndex
      isNull != originalNull || (!isNull && value != originalValue)

/-- The `values` list `collectChanges` accumulates for a new row: one entry
per column whose working value is explicitly null or non-empty. -/
def insertValuesFor (columns : List String) (row : WorkingRow) :
    List DataEditorCellUpdate :=
  (List.range columns.length).filterMap fun columnIndex =>
    let value := cellValueAt row.values columnIndex
    let isNull := cellNullAt row.nulls columnIndex
    if !isNull && value == "" then none
    else some { columnIndex := columnIndex, value := value, isNull := isNull }

/-- The `updates` list `collectChanges` accumulates for an existing row: one
entry per column whose (value, null flag) differs from the baseline,
null-flag-first then text value. -/
def updateDiffFor (columns : List String) (originalRow : EditorRow) (row : WorkingRow) :
    List DataEditorCellUpdate :=
  (List.range columns.length).filterMap fun columnIndex =>
    let value := cellValueAt row.values columnIndex
    let isNull := cellNullAt row.nulls columnIndex
    let originalValue := cellValueAt originalRow.values columnIndex
    let originalNull := cellNullAt originalRow.nulls columnIndex
    let changed := isNull != originalNull || (!isNull && value != originalValue)
    if changed then some { columnIndex := columnIndex, value := value, isNull := isNull }
    else none

/-- The at-most-one operation the `collectChanges` loop pushes for the
working row at `rowIndex`. -/
def rowChangeFor (columns : List String) (originalRows : List EditorRow)
    (rowIndex : Nat) (row : WorkingRow) : Option DataEditorChange :=
  if row.isNew then
    let values := insertValuesFor columns row
    if values.length > 0 then some (.insert values) else none
  else
    match originalRows[rowIndex]? with
    | none => none
    | some originalRow =>
      let updates := updateDiffFor columns originalRow row
      if updates.length > 0 then some (.update rowIndex updates) else none

def collectChangesAux (columns : List String) (originalRows : List EditorRow) :
    Nat → List WorkingRow → List DataEditorChange
  | _, [] => []
  | rowIndex, row :: rest =>
    match rowChangeFor columns originalRows rowIndex row with
    | none => collectChangesAux columns originalRows (rowIndex + 1) rest
    | some change => change :: collectChangesAux columns originalRows (rowIndex + 1) rest

/-- `collectChanges()` of the webview script: iterate the working rows with
their indices, pushing at most one operation per row. -/
def collectChanges (columns : List String) (originalRows : List EditorRow)
    (workingRows : List WorkingRow) : List DataEditorChange :=
  collectChangesAux columns originalRows 0 workingRows

/-- The cell-change payload of an operation. -/
def changeCells : DataEditorChange → List DataEditorCellUpdate
  | .update _ updates => updates
  | .insert values => values

/-! ## Table snapshot loader and write-back runner (`openTableService.ts`) -/

structure TableContext where
  schemaName : String
  tableName : String
deriving DecidableEq, Repr

def DATA_EDITOR_PAGE_SIZE : Nat := 100

def ROW_TOKEN_ALIAS : String := "__postgres_explorer_row_token__"

/-- The quote-doubling replace of `quoteIdentifier` (`/"/g` to two quotes). -/
def escapeQuotes : List Char → List Char
  | [] => []
  | c :: rest =>
      if c = '"' then '"' :: '"' :: escapeQuotes rest else c :: escapeQuotes rest

/-- `quoteIdentifier`: wrap in double quotes, doubling embedded quotes. -/
def quoteIdentifier (identifier : String) : String :=
  "\"" ++ String.mk (escapeQuotes identifier.data) ++ "\""

/-- `buildOpenTableSql` of the data-editor `OpenTableService`. -/
def buildOpenTableSql (schemaName tableName : String) (limit offset : Nat) : String :=
  let qualified := quoteIdentifier schemaName ++ "." ++ quoteIdentifier tableName
  let rowToken := quoteIdentifier ROW_TOKEN_ALIAS
  "SELECT ctid::text AS " ++ rowToken ++ ", * FROM " ++ qualified ++
    " ORDER BY ctid LIMIT " ++ toString limit ++ " OFFSET " ++ toString offset ++ ";"

/-- `formatValue`, restricted to the JS values of our model
(`String(value)` on numbers, identity on strings). -/
def formatValue : JsValue → String
  | .nullV => "null"
  | .str s => s
  | .num n => toString n

/-- `toEditorRow`: serialize one result row to editable text per column,
with an explicit null flag for SQL null / absent values. -/
def toEditorRow (row : JsRow) (columns : List String) : EditorRow :=
  { values := columns.map fun column =>
      match jsLookup row column with
      | none => ""
      | some JsValue.nullV => ""
      | some v => formatValue v
    nulls := columns.map fun column =>
      match jsLookup row column with
      | none => true
      | some JsValue.nullV => true
      | some _ => false }

/-- `row[ROW_TOKEN_ALIAS]` coerced as `reload` does: the value when it is a
string, `""` otherwise. -/
def rowTokenOf (row : JsRow) : String :=
  match jsLookup row ROW_TOKEN_ALIAS with
  | some (.str s) => s
  | _ => ""

structure ReloadOutcome where
  sql : String
  columns : List String
  rows : List EditorRow
  rowTokens : List String
  hasNextPage : Bool
deriving DecidableEq, Repr

/-- The pure core of `OpenTableService.reload`: the SQL issued for the
current page (limit `pageSize + 1`, offset `currentPage * pageSize`) and the
post-processing of the engine result into the next editor state. -/
def reloadCompute (schemaName tableName : String) (currentPage pageSize : Nat)
    (result : EngineResult) : ReloadOutcome :=
  let offset := currentPage * pageSize
  let limit := pageSize + 1
  let sql := buildOpenTableSql schemaName tableName limit offset
  let columns := result.fields.filter (fun fieldName => fieldName != ROW_TOKEN_ALIAS)
  let hasNextPage : Bool := decide (result.rows.length > pageSize)
  let visibleRows := if hasNextPage then result.rows.take pageSize else result.rows
  { sql := sql
    columns := columns
    rows := visibleRows.map (fun row => toEditorRow row columns)
    rowTokens := visibleRows.map rowTokenOf
    hasNextPage := hasNextPage }

/-- JS truthiness of `columns[update.columnIndex]`: a missing entry
(`undefined`) and the empty string are both falsy, so both are skipped. -/
def jsColumnName (columns : List String) (columnIndex : Nat) : Option String :=
  match columns[columnIndex]? with
  | none => none
  | some name => if name = "" then none else some name

structure SqlStatement where
  sql : String
  values : List (Option String)
deriving DecidableEq, Repr

/-- A bound parameter: `update.isNull ? null : update.value`. -/
def cellParam (update : DataEditorCellUpdate) : Option String :=
  if update.isNull then none else some update.value

/-- The resolved column name of a cell change (under validity,
`jsColumnName` returns exactly this). -/
def resolvedName (columns : List String) (update : DataEditorCellUpdate) : String :=
  (jsColumnName columns update.columnIndex).getD ""

/-- The `setClauses` / `values` accumulation loop of `buildUpdateStatement`:
placeholders are numbered by the running length of `values`. -/
def buildSetClauses (columns : List String) :
    List DataEditorCellUpdate → List String → List (Option String) →
      List String × List (Option String)
  | [], setClauses, values => (setClauses, values)
  | update :: rest, setClauses, values =>
    match jsColumnName columns update.columnIndex with
    | none => buildSetClauses columns rest setClauses values
    | some columnName =>
        buildSetClauses columns rest
          (setClauses ++
            [quoteIdentifier columnName ++ " = $" ++ toString (values.length + 1)])
          (values ++ [cellParam update])

/-- `OpenTableService.buildUpdateStatement`. -/
def buildUpdateStatement (table : TableContext) (columns : List String)
    (updates : List DataEditorCellUpdate) (rowToken : String) : Option SqlStatement :=
  if updates.isEmpty then none
  else
    let built := buildSetClauses columns updates [] []
    if built.1.isEmpty then none
    else
      let qualified := quoteIdentifier table.schemaName ++ "." ++
        quoteIdentifier table.tableName
      let values := built.2 ++ [some rowToken]
      some { sql := "UPDATE " ++ qualified ++ " SET " ++
               String.intercalate ", " built.1 ++ " WHERE ctid = $" ++
               toString values.length ++ "::tid;"
             values := values }

/-- The `columnNames` / `placeholders` / `values` accumulation loop of
`buildInsertStatement`, with the `seenColumns` set (first occurrence of a
column index wins; skipped cell changes never enter the set). -/
def buildInsertParts (columns : List String) :
    List DataEditorCellUpdate → List Nat → List String → List String →
      List (Option String) → List String × List String × List (Option String)
  | [], _, columnNames, placeholders, values => (columnNames, placeholders, values)
  | update :: rest, seenColumns, columnNames, placeholders, values =>
    if update.columnIndex ∈ seenColumns then
      buildInsertParts columns rest seenColumns columnNames placeholders values
    else
      match jsColumnName columns update.columnIndex with
      | none => buildInsertParts columns rest seenColumns columnNames placeholders values
      | some columnName =>
          buildInsertParts columns rest (seenColumns ++ [update.columnIndex])
            (columnNames ++ [quoteIdentifier columnName])
            (placeholders ++ ["$" ++ toString (values.length + 1)])
            (values ++ [cellParam update])

/-- `OpenTableService.buildInsertStatement`. -/
def buildInsertStatement (table : TableContext) (columns : List String)
    (insertValues : List DataEditorCellUpdate) : Option SqlStatement :=
  if insertValues.isEmpty then none
  else
    let built := buildInsertParts columns insertValues [] [] [] []
    if built.1.isEmpty then none
    else
      let qualified := quoteIdentifier table.schemaName ++ "." ++
        quoteIdentifier table.tableName
      some { sql := "INSERT INTO " ++ qualified ++ " (" ++
               String.intercalate ", " built.1 ++ ") VALUES (" ++
               String.intercalate ", " built.2.1 ++ ");"
             values := built.2.2 }

/-- The caller-independent sanitization the insert builder's loop performs:
drop cell changes whose column index resolves to no (truthy) column name,
and keep only the first occurrence of each column index. -/
def sanitizeInsertValues (columns : List String) :
    List Nat → List DataEditorCellUpdate → List DataEditorCellUpdate
  | _, [] => []
  | seen, update :: rest =>
    if update.columnIndex ∈ seen then sanitizeInsertValues columns seen rest
    else
      match jsColumnName columns update.columnIndex with
      | none => sanitizeInsertValues columns seen rest
      | some _ => update :: sanitizeInsertValues columns (seen ++ [update.columnIndex]) rest

/-! ### Write-back runner as a trace of database interactions -/

/-- One interaction on the dedicated connection: checkout, `BEGIN`, an
issued statement, `COMMIT`, `ROLLBACK`, release. -/
inductive DbEvent where
  | connect
  | begin_tx
  | stmt (sql : String)
  | commit_tx
  | rollback_tx
  | release
deriving DecidableEq, Repr

structure LoopResult where
  events : List DbEvent
  nextCall : Nat
  updatedRows : Nat
  insertedRows : Nat
  err : Option JsError
deriving DecidableEq, Repr

/-- The statement the save loop issues for one change, if any, tagged with
whether it is an insert: inserts are built directly; updates are skipped
when the stored row token is missing or `""` (both falsy in JS) and
otherwise built against that token. -/
def statementFor (table : TableContext) (columns : List String)
    (activeRowTokens : List String) : DataEditorChange → Option (SqlStatement × Bool)
  | .insert values => (buildInsertStatement table columns values).map (fun s => (s, true))
  | .update rowIndex updates =>
      let rowToken := (activeRowTokens[rowIndex]?).getD ""
      if rowToken = "" then none
      else (buildUpdateStatement table columns updates rowToken).map (fun s => (s, false))

/-- The `for (const change of changes)` loop of `saveChanges`: `exec n` is
the outcome of the n-th `client.query` call on the dedicated connection
(`.ok c` carries pg's `rowCount`, possibly null); on the first failing
statement the loop stops with that error. -/
def saveLoop (exec : Nat → Except JsError (Option Nat)) (table : TableContext)
    (columns : List String) (activeRowTokens : List String) :
    List DataEditorChange → Nat → Nat → Nat → LoopResult
  | [], n, updatedRows, insertedRows =>
      { events := [], nextCall := n, updatedRows := updatedRows
        insertedRows := insertedRows, err := none }
  | change :: rest, n, updatedRows, insertedRows =>
    match statementFor table columns activeRowTokens change with
    | none => saveLoop exec table columns activeRowTokens rest n updatedRows insertedRows
    | some (statement, isInsert) =>
      match exec n with
      | .error e =>
          { events := [DbEvent.stmt statement.sql], nextCall := n + 1
            updatedRows := updatedRows, insertedRows := insertedRows, err := some e }
      | .ok rowCount =>
          let added := rowCount.getD 0
          let result := saveLoop exec table columns activeRowTokens rest (n + 1)
            (if isInsert then updatedRows else updatedRows + added)
            (if isInsert then insertedRows + added else insertedRows)
          { result with events := DbEvent.stmt statement.sql :: result.events }

/-- `catch (error) { await client.query("ROLLBACK"); throw error; }`: when
the `ROLLBACK` call itself rejects, that rejection propagates instead. -/
def rollbackOutcomeError (rollbackOutcome : Except JsError (Option Nat))
    (original : JsError) : JsError :=
  match rollbackOutcome with
  | .error e => e
  | .ok _ => original

/-- `OpenTableService.saveChanges` as the trace of interactions on the
dedicated connection plus its result: `connect` is the `pool.connect()`
outcome; call 0 is `BEGIN`, then one call per executed statement, then
`COMMIT` on success; any failure triggers `ROLLBACK` and rethrows; the
`finally` releases the client. -/
def saveChangesRun (connect : Except JsError Unit)
    (exec : Nat → Except JsError (Option Nat)) (table : TableContext)
    (columns : List String) (activeRowTokens : List String)
    (changes : List DataEditorChange) :
    List DbEvent × Except JsError (Nat × Nat) :=
  match connect with
  | .error e => ([], .error e)
  | .ok _ =>
    match exec 0 with
    | .error e =>
        ([DbEvent.connect, DbEvent.begin_tx, DbEvent.rollback_tx, DbEvent.release],
         .error (rollbackOutcomeError (exec 1) e))
    | .ok _ =>
      let loop := saveLoop exec table columns activeRowTokens changes 1 0 0
      match loop.err with
      | some e =>
          ([DbEvent.connect, DbEvent.begin_tx] ++ loop.events ++
             [DbEvent.rollback_tx, DbEvent.release],
           .error (rollbackOutcomeError (exec loop.nextCall) e))
      | none =>
        match exec loop.nextCall with
        | .error e =>
            ([DbEvent.connect, DbEvent.begin_tx] ++ loop.events ++
               [DbEvent.commit_tx, DbEvent.rollback_tx, DbEvent.release],
             .error (rollbackOutcomeError (exec (loop.nextCall + 1)) e))
        | .ok _ =>
            ([DbEvent.connect, DbEvent.begin_tx] ++ loop.events ++
               [DbEvent.commit_tx, DbEvent.release],
             .ok (loop.updatedRows, loop.insertedRows))

/-- The statements the save loop executes, in compiled order. -/
def builtStatements (table : TableContext) (columns : List String)
    (activeRowTokens : List String) (changes : List DataEditorChange) :
    List SqlStatement :=
  changes.filterMap
    (fun change => (statementFor table columns activeRowTokens change).map Prod.fst)

/-- The interactions of `runCancelableQuery`'s promise body on the dedicated
connection: checkout, the single statement, and the `finally` release —
whatever the statement's outcome. When checkout itself fails no client was
obtained, so nothing is released. -/
def runQueryEvents (connect : Except JsError Unit)
    (queryOutcome : Except JsError EngineResult) (sql : String) : List DbEvent :=
  match connect with
  | .error _ => []
  | .ok _ =>
      match queryOutcome with
      | .ok _ => [DbEvent.connect, DbEvent.stmt sql, DbEvent.release]
      | .error _ => [DbEvent.connect, DbEvent.stmt sql, DbEvent.release]

/-- Concrete page-load fixture: a three-row table page with locator values. -/
def tokenRow1 : JsRow := [(ROW_TOKEN_ALIAS, JsValue.str "(0,1)"), ("id", JsValue.num 1)]

def tokenRow2 : JsRow := [(ROW_TOKEN_ALIAS, JsValue.str "(0,2)"), ("id", JsValue.num 2)]

def tokenRow3 : JsRow := [(ROW_TOKEN_ALIAS, JsValue.str "(0,3)"), ("id", JsValue.num 3)]

def threeRowPageResult : EngineResult :=
  { fields := [ROW_TOKEN_ALIAS, "id"]
    rows := [tokenRow1, tokenRow2, tokenRow3]
    rowCount := some 3 }

/-- Witness fixtures for the write-back runner: a run where every call
succeeds, and a run where the first statement (call 1) fails. -/
def execAllOk : Nat → Except JsError (Option Nat) := fun _ => Except.ok (some 1)

def execFailAfterBegin : Nat → Except JsError (Option Nat) :=
  fun n => if n = 0 then Except.ok (some 1) else Except.error JsError.nonObj

def witnessTable : TableContext := { schemaName := "public", tableName := "people" }

def witnessChanges : List DataEditorChange :=
  [DataEditorChange.update 0 [{ columnIndex := 0, value := "x", isNull := false }]]

/-! ## Theorems -/

theorem getD_map_const {α β : Type} (l : List α) (i : Nat) (c : β) :
    (l.map fun _ => c).getD i c = c := by
  induction l generalizing i with
  | nil => simp [List.getD]
  | cons a l ih =>
    cases i with
    | zero => simp [List.getD]
    | succ n => simp only [List.map_cons, List.getD_cons_succ]; exact ih n

theorem insertValuesFor_createEmptyRow (columns : List String) :
    insertValuesFor columns (createEmptyRow columns) = [] := by
  unfold insertValuesFor createEmptyRow
  refine List.filterMap_eq_nil_iff.mpr fun i _ => ?_
  simp only [cellValueAt, cellNullAt, getD_map_const]
  simp

theorem rowChangeFor_createEmptyRow (columns : List String)
    (originalRows : List EditorRow) (rowIndex : Nat) :
    rowChangeFor columns originalRows rowIndex (createEmptyRow columns) = none := by
  unfold rowChangeFor
  rw [if_pos (by rfl)]
  simp [insertValuesFor_createEmptyRow]

theorem updateDiffFor_clone (columns : List String) (row : EditorRow) :
    updateDiffFor columns row (cloneRow row) = [] := by
  unfold updateDiffFor cloneRow
  refine List.filterMap_eq_nil_iff.mpr fun i _ => ?_
  simp

theorem rowChangeFor_clone (columns : List String) (orig : List EditorRow)
    (rowIndex : Nat) (b : EditorRow) (hget : orig[rowIndex]? = some b) :
    rowChangeFor columns orig rowIndex (cloneRow b) = none := by
  unfold rowChangeFor
  rw [if_neg (by simp [cloneRow])]
  rw [hget]
  simp [updateDiffFor_clone]

theorem collectChangesAux_clone (columns : List String) (orig : List EditorRow)
    (suf : List EditorRow) :
    ∀ pre : List EditorRow, orig = pre ++ suf →
      collectChangesAux columns orig pre.length (suf.map cloneRow) = [] := by
  induction suf with
  | nil => intro pre _; rfl
  | cons b rest ih =>
    intro pre h
    have hget : orig[pre.length]? = some b := by
      rw [h, List.getElem?_append_right (le_refl pre.length)]
      simp
    simp only [List.map_cons, collectChangesAux, rowChangeFor_clone columns orig _ b hget]
    have h' : orig = (pre ++ [b]) ++ rest := by rw [h]; simp
    have := ih (pre ++ [b]) h'
    simpa using this

theorem rowChangeFor_cells_ne_nil (columns : List String) (orig : List EditorRow)
    (rowIndex : Nat) (row : WorkingRow) (change : DataEditorChange)
    (h : rowChangeFor columns orig rowIndex row = some change) :
    changeCells change ≠ [] := by
  unfold rowChangeFor at h
  by_cases hn : row.isNew
  · rw [if_pos hn] at h
    by_cases hl : (insertValuesFor columns row).length > 0
    · rw [if_pos hl] at h
      cases h
      simpa [changeCells] using List.length_pos.mp hl
    · rw [if_neg hl] at h
      cases h
  · rw [if_neg hn] at h
    rcases hget : orig[rowIndex]? with _ | o
    · rw [hget] at h; cases h
    · rw [hget] at h
      dsimp only at h
      by_cases hl : (updateDiffFor columns o row).length > 0
      · rw [if_pos hl] at h
        cases h
        simpa [changeCells] using List.length_pos.mp hl
      · rw [if_neg hl] at h
        cases h

theorem collectChangesAux_cells_ne_nil (columns : List String) (orig : List EditorRow)
    (ws : List WorkingRow) :
    ∀ (k : Nat) (change : DataEditorChange),
      change ∈ collectChangesAux columns orig k ws → changeCells change ≠ [] := by
  induction ws with
  | nil => intro k change h; simp [collectChangesAux] at h
  | cons w rest ih =>
    intro k change h
    simp only [collectChangesAux] at h
    rcases hrc : rowChangeFor columns orig k w with _ | c
    · rw [hrc] at h
      exact ih (k + 1) change h
    · rw [hrc] at h
      rcases List.mem_cons.mp h with h1 | h2
      · subst h1
        exact rowChangeFor_cells_ne_nil columns orig k w change hrc
      · exact ih (k + 1) change h2

theorem collectChangesAux_append_none (columns : List String) (orig : List EditorRow)
    (w : WorkingRow) (hw : ∀ i, rowChangeFor columns orig i w = none)
    (ws : List WorkingRow) :
    ∀ k : Nat, collectChangesAux columns orig k (ws ++ [w])
      = collectChangesAux columns orig k ws := by
  induction ws with
  | nil => intro k; simp [collectChangesAux, hw k]
  | cons x rest ih =>
    intro k
    simp only [List.cons_append, collectChangesAux]
    rcases hrc : rowChangeFor columns orig k x with _ | c <;> simp [ih (k + 1)]

/-- C6: the change compiler emits nothing for a no-op diff — compiling a
clone of the baseline yields `[]`, every emitted operation carries a
non-empty cell-change list, and appending an entirely empty new row never
adds an operation. -/
theorem collectChanges_noop_diff (columns : List String) (originalRows : List EditorRow)
    (workingRows : List WorkingRow) :
    collectChanges columns originalRows (originalRows.map cloneRow) = [] ∧
    (∀ change ∈ collectChanges columns originalRows workingRows, changeCells change ≠ []) ∧
    collectChanges columns originalRows (workingRows ++ [createEmptyRow columns])
      = collectChanges columns originalRows workingRows := by
  refine ⟨?_, ?_, ?_⟩
  · exact collectChangesAux_clone columns originalRows originalRows [] rfl
  · exact collectChangesAux_cells_ne_nil columns originalRows workingRows 0
  · exact collectChangesAux_append_none columns originalRows (createEmptyRow columns)
      (fun i => rowChangeFor_createEmptyRow columns originalRows i) workingRows 0

theorem mem_insertValuesFor (columns : List String) (row : WorkingRow) (c : Nat) :
    c ∈ (insertValuesFor columns row).map DataEditorCellUpdate.columnIndex ↔
      c < columns.length ∧
        (cellNullAt row.nulls c || (cellValueAt row.values c != "")) = true := by
  unfold insertValuesFor
  simp only [List.mem_map, List.mem_filterMap, List.mem_range]
  constructor
  · rintro ⟨u, ⟨i, hi, hfi⟩, hc⟩
    by_cases hcond : (!cellNullAt row.nulls i && (cellValueAt row.values i == "")) = true
    · rw [if_pos hcond] at hfi
      cases hfi
    · rw [if_neg hcond] at hfi
      cases hfi
      subst hc
      refine ⟨hi, ?_⟩
      revert hcond
      cases cellNullAt row.nulls i <;> simp [bne]
  · rintro ⟨hlt, hdirty⟩
    refine ⟨⟨c, cellValueAt row.values c, cellNullAt row.nulls c⟩, ⟨c, hlt, ?_⟩, rfl⟩
    rw [if_neg]
    revert hdirty
    cases cellNullAt row.nulls c <;> simp [bne]

theorem mem_updateDiffFor (columns : List String) (originalRow : EditorRow)
    (row : WorkingRow) (c : Nat) :
    c ∈ (updateDiffFor columns originalRow row).map DataEditorCellUpdate.columnIndex ↔
      c < columns.length ∧
        ((cellNullAt row.nulls c != cellNullAt originalRow.nulls c) ||
          (!cellNullAt row.nulls c &&
            (cellValueAt row.values c != cellValueAt originalRow.values c))) = true := by
  unfold updateDiffFor
  simp only [List.mem_map, List.mem_filterMap, List.mem_range]
  constructor
  · rintro ⟨u, ⟨i, hi, hfi⟩, hc⟩
    by_cases hcond : ((cellNullAt row.nulls i != cellNullAt originalRow.nulls i) ||
        (!cellNullAt row.nulls i &&
          (cellValueAt row.values i != cellValueAt originalRow.values i))) = true
    · rw [if_pos hcond] at hfi
      cases hfi
      subst hc
      exact ⟨hi, hcond⟩
    · rw [if_neg hcond] at hfi
      cases hfi
  · rintro ⟨hlt, hchanged⟩
    exact ⟨⟨c, cellValueAt row.values c, cellNullAt row.nulls c⟩,
      ⟨c, hlt, by rw [if_pos hchanged]⟩, rfl⟩

theorem collectChangesAux_eq_filterMap (columns : List String) (orig : List EditorRow)
    (ws : List WorkingRow) :
    ∀ k, collectChangesAux columns orig k ws
      = (List.range ws.length).filterMap
          (fun i => (ws[i]?).bind (rowChangeFor columns orig (k + i))) := by
  induction ws with
  | nil => intro k; simp [collectChangesAux]
  | cons w rest ih =>
    intro k
    have hfun : ((fun i => (((w :: rest)[i]?).bind (rowChangeFor columns orig (k + i))))
          ∘ Nat.succ)
        = fun i => ((rest[i]?).bind (rowChangeFor columns orig (k + 1 + i))) := by
      funext i
      have harith : k + Nat.succ i = k + 1 + i := by omega
      simp only [Function.comp_apply, List.getElem?_cons_succ, harith]
    rcases hrc : rowChangeFor columns orig k w with _ | c <;>
      simp only [collectChangesAux, hrc, List.length_cons, List.range_succ_eq_map,
        List.filterMap_cons, List.getElem?_cons_zero, Option.bind_eq_bind, Option.some_bind,
        Nat.add_zero, List.filterMap_map, hfun, ih (k + 1)]

/-- C7: the UI dirty marker and the change compiler agree on every cell of
the grid — for every row index and in-range column index, `isCellDirty`
returns `true` iff the operation the compiler produces for that row carries
a cell change for that column (both sides use the null-flag-first, then
text-value comparison); and `collectChanges` is exactly the per-row
compilation collected over all row indices. The hypothesis `hwf` states the
grid invariant maintained by the webview: every non-new working row sits at
an index that has a baseline row. -/
theorem isCellDirty_agrees_with_compiler (columns : List String)
    (originalRows : List EditorRow) (workingRows : List WorkingRow)
    (rowIndex columnIndex : Nat)
    (hwf : ∀ i row, workingRows[i]? = some row → row.isNew = false →
      i < originalRows.length)
    (hcol : columnIndex < columns.length) :
    (isCellDirty originalRows workingRows rowIndex columnIndex = true ↔
      ∃ row, workingRows[rowIndex]? = some row ∧
        ∃ change, rowChangeFor columns originalRows rowIndex row = some change ∧
          columnIndex ∈ (changeCells change).map DataEditorCellUpdate.columnIndex) ∧
    collectChanges columns originalRows workingRows
      = (List.range workingRows.length).filterMap
          (fun i => (workingRows[i]?).bind (rowChangeFor columns originalRows i)) := by
  constructor
  · rcases hget : workingRows[rowIndex]? with _ | row
    · unfold isCellDirty
      rw [hget]
      simp
    · by_cases hnew : row.isNew
      · constructor
        · intro hdirty
          unfold isCellDirty at hdirty
          rw [hget] at hdirty
          dsimp only at hdirty
          rw [if_pos hnew] at hdirty
          have hmem : columnIndex ∈ (insertValuesFor columns row).map
              DataEditorCellUpdate.columnIndex :=
            (mem_insertValuesFor columns row columnIndex).mpr ⟨hcol, hdirty⟩
          have hne : insertValuesFor columns row ≠ [] := by
            rintro hnil
            rw [hnil] at hmem
            simp at hmem
          refine ⟨row, rfl, DataEditorChange.insert (insertValuesFor columns row), ?_, ?_⟩
          · rw [rowChangeFor, if_pos hnew, if_pos (List.length_pos.mpr hne)]
          · simpa [changeCells] using hmem
        · rintro ⟨row', hget', change, hchange, hmem⟩
          injection hget' with hrr
          subst hrr
          rw [rowChangeFor, if_pos hnew] at hchange
          by_cases hlen : (insertValuesFor columns row).length > 0
          · rw [if_pos hlen] at hchange
            cases hchange
            unfold isCellDirty
            rw [hget]
            dsimp only
            rw [if_pos hnew]
            exact ((mem_insertValuesFor columns row columnIndex).mp
              (by simpa [changeCells] using hmem)).2
          · rw [if_neg hlen] at hchange
            cases hchange
      · have hfalse : row.isNew = false := by simpa using hnew
        have hlt : rowIndex < originalRows.length := hwf rowIndex row hget hfalse
        rcases hgetO : originalRows[rowIndex]? with _ | originalRow
        · exact absurd (List.getElem?_eq_getElem hlt) (by rw [hgetO]; simp)
        · constructor
          · intro hdirty
            unfold isCellDirty at hdirty
            rw [hget] at hdirty
            dsimp only at hdirty
            rw [if_neg hnew, hgetO] at hdirty
            dsimp only at hdirty
            have hmem : columnIndex ∈ (updateDiffFor columns originalRow row).map
                DataEditorCellUpdate.columnIndex :=
              (mem_updateDiffFor columns originalRow row columnIndex).mpr ⟨hcol, hdirty⟩
            have hne : updateDiffFor columns originalRow row ≠ [] := by
              rintro hnil
              rw [hnil] at hmem
              simp at hmem
            refine ⟨row, rfl,
              DataEditorChange.update rowIndex (updateDiffFor columns originalRow row),
              ?_, ?_⟩
            · rw [rowChangeFor, if_neg hnew, hgetO]
              dsimp only
              rw [if_pos (List.length_pos.mpr hne)]
            · simpa [changeCells] using hmem
          · rintro ⟨row', hget', change, hchange, hmem⟩
            injection hget' with hrr
            subst hrr
            rw [rowChangeFor, if_neg hnew, hgetO] at hchange
            dsimp only at hchange
            by_cases hlen : (updateDiffFor columns originalRow row).length > 0
            · rw [if_pos hlen] at hchange
              cases hchange
              unfold isCellDirty
              rw [hget]
              dsimp only
              rw [if_neg hnew, hgetO]
              exact ((mem_updateDiffFor columns originalRow row columnIndex).mp
                (by simpa [changeCells] using hmem)).2
            · rw [if_neg hlen] at hchange
              cases hchange
  · rw [collectChanges, collectChangesAux_eq_filterMap columns originalRows workingRows 0]
    simp

theorem isCellDirty_agrees_with_compiler_witness :
    (isCellDirty [{ values := ["Ada"], nulls := [false] }]
        [{ values := ["Ada Lovelace"], nulls := [false], isNew := false }] 0 0 = true ↔
      ∃ row, ([{ values := ["Ada Lovelace"], nulls := [false], isNew := false }]
            : List WorkingRow)[0]? = some row ∧
        ∃ change, rowChangeFor ["name"] [{ values := ["Ada"], nulls := [false] }] 0 row
            = some change ∧
          0 ∈ (changeCells change).map DataEditorCellUpdate.columnIndex) ∧
    collectChanges ["name"] [{ values := ["Ada"], nulls := [false] }]
        [{ values := ["Ada Lovelace"], nulls := [false], isNew := false }]
      = (List.range 1).filterMap
          (fun i => (([{ values := ["Ada Lovelace"], nulls := [false], isNew := false }]
              : List WorkingRow)[i]?).bind
            (rowChangeFor ["name"] [{ values := ["Ada"], nulls := [false] }] i)) := by
  refine isCellDirty_agrees_with_compiler ["name"] [{ values := ["Ada"], nulls := [false] }]
    [{ values := ["Ada Lovelace"], nulls := [false], isNew := false }] 0 0 ?_ (by decide)
  intro i row hget _
  cases i with
  | zero => simp
  | succ n => simp at hget

theorem collectChanges_noop_diff_witness :
    (DataEditorChange.update 0 [{ columnIndex := 0, value := "Ada Lovelace", isNull := false }]
        ∈ collectChanges ["name"] [{ values := ["Ada"], nulls := [false] }]
          [{ values := ["Ada Lovelace"], nulls := [false], isNew := false }]) ∧
    changeCells
        (DataEditorChange.update 0
          [{ columnIndex := 0, value := "Ada Lovelace", isNull := false }]) ≠ [] := by
  have h := (collectChanges_noop_diff ["name"] [{ values := ["Ada"], nulls := [false] }]
    [{ values := ["Ada Lovelace"], nulls := [false], isNew := false }]).2.1
  have hmem : DataEditorChange.update 0
      [{ columnIndex := 0, value := "Ada Lovelace", isNull := false }]
      ∈ collectChanges ["name"] [{ values := ["Ada"], nulls := [false] }]
        [{ values := ["Ada Lovelace"], nulls := [false], isNew := false }] := by decide
  exact ⟨hmem, h _ hmem⟩

/-- C1: for a successful execution with row limit `L`, if the engine returned
more than `L` rows the result is truncated to exactly `L` rows with
`truncated = true`; if it returned at most `L` rows nothing is dropped and
`truncated = false`; in both cases `rowCount` is the engine-reported count. -/
theorem runQuery_rowLimit_truncation (sql : String) (durationMs : Nat) (canceled : Bool)
    (result : EngineResult) (rowLimit : Nat) :
    (result.rows.length > rowLimit →
      (runCancelableQueryResult sql durationMs canceled (.ok result) rowLimit).truncated = true ∧
      (runCancelableQueryResult sql durationMs canceled (.ok result) rowLimit).rows.length
        = rowLimit) ∧
    (result.rows.length ≤ rowLimit →
      (runCancelableQueryResult sql durationMs canceled (.ok result) rowLimit).truncated = false ∧
      (runCancelableQueryResult sql durationMs canceled (.ok result) rowLimit).rows
        = result.rows) ∧
    (runCancelableQueryResult sql durationMs canceled (.ok result) rowLimit).rowCount
      = result.rowCount := by
  simp only [runCancelableQueryResult]
  by_cases h : result.rows.length > rowLimit
  · rw [if_pos h]
    refine ⟨fun _ => ⟨rfl, ?_⟩, fun hle => absurd h (not_lt.mpr hle), rfl⟩
    simp [List.length_take, Nat.min_eq_left (Nat.le_of_lt h)]
  · rw [if_neg h]
    exact ⟨fun hgt => absurd hgt h, fun _ => ⟨rfl, rfl⟩, rfl⟩

theorem runQuery_rowLimit_truncation_witness :
    fiveRowEngineResult.rows.length > 3 ∧
    (runCancelableQueryResult "SELECT * FROM t" 7 false (.ok fiveRowEngineResult) 3).truncated
      = true ∧
    (runCancelableQueryResult "SELECT * FROM t" 7 false (.ok fiveRowEngineResult) 3).rows.length
      = 3 ∧
    (runCancelableQueryResult "SELECT * FROM t" 7 false (.ok fiveRowEngineResult) 3).rowCount
      = some 5 := by
  have h := runQuery_rowLimit_truncation "SELECT * FROM t" 7 false fiveRowEngineResult 3
  have hgt : fiveRowEngineResult.rows.length > 3 := by decide
  exact ⟨hgt, (h.1 hgt).1, (h.1 hgt).2, h.2.2⟩

/-- C2 counterexample: `cancel()` invoked before resolution (the local
`canceled` flag is `true` when the statement settles), yet the statement
succeeds: the result has `cancelled = false` and no error, contradicting the
claim that cancellation before resolution always yields `cancelled = true`
with `error.message = "Query cancelled."` regardless of whether the
underlying statement subsequently succeeds. -/
theorem cancel_then_success_not_cancelled :
    (runCancelableQueryResult "SELECT 1" 0 true (.ok emptyEngineResult)
        DEFAULT_ROW_LIMIT).cancelled = false ∧
    (runCancelableQueryResult "SELECT 1" 0 true (.ok emptyEngineResult)
        DEFAULT_ROW_LIMIT).error = none := by
  constructor <;> rfl

/-- C2 (amended): if `cancel()` was invoked before resolution and the
underlying statement subsequently fails, the result has `cancelled = true`
and `error.message = "Query cancelled."`, for every raw error (hence
regardless of the dispatch outcome, which never feeds into the result — the
`canceled` flag is set before the dispatch is even attempted); if the
statement succeeds instead, the result has `cancelled = false`. -/
theorem cancel_before_failure_cancelled (sql : String) (durationMs : Nat)
    (e : JsError) (result : EngineResult) (rowLimit : Nat) :
    (runCancelableQueryResult sql durationMs true (.error e) rowLimit).cancelled = true ∧
    Option.map QueryErrorInfo.message
        (runCancelableQueryResult sql durationMs true (.error e) rowLimit).error
      = some "Query cancelled." ∧
    (runCancelableQueryResult sql durationMs true (.ok result) rowLimit).cancelled = false := by
  refine ⟨rfl, rfl, ?_⟩
  unfold runCancelableQueryResult
  by_cases h : result.rows.length > rowLimit <;> simp [h]

/-- C3: a failing execution normalizes the raw error into
`{message, code, detail, position}`; the result is flagged `cancelled` iff
cancellation was explicitly requested or the normalized code is the engine's
query-canceled code `"57014"` (with the message overridden to the fixed
constant), otherwise the original message passes through; and whenever an
error is present the rows and columns are both empty. -/
theorem runQuery_failure_normalization (sql : String) (durationMs : Nat) (canceled : Bool)
    (e : JsError) (rowLimit : Nat) (outcome : Except JsError EngineResult) :
    ((runCancelableQueryResult sql durationMs canceled (.error e) rowLimit).error
        = some { normalizeError e with
            message :=
              if canceled || (normalizeError e).code == some CANCELED_ERROR_CODE
              then "Query cancelled." else (normalizeError e).message } ∧
      ((runCancelableQueryResult sql durationMs canceled (.error e) rowLimit).cancelled = true ↔
        canceled = true ∨ (normalizeError e).code = some CANCELED_ERROR_CODE) ∧
      ((runCancelableQueryResult sql durationMs canceled (.error e) rowLimit).cancelled = true →
        Option.map QueryErrorInfo.message
            (runCancelableQueryResult sql durationMs canceled (.error e) rowLimit).error
          = some "Query cancelled.") ∧
      ((runCancelableQueryResult sql durationMs canceled (.error e) rowLimit).cancelled = false →
        Option.map QueryErrorInfo.message
            (runCancelableQueryResult sql durationMs canceled (.error e) rowLimit).error
          = some (normalizeError e).message)) ∧
    ((runCancelableQueryResult sql durationMs canceled outcome rowLimit).error.isSome = true →
      (runCancelableQueryResult sql durationMs canceled outcome rowLimit).rows = [] ∧
      (runCancelableQueryResult sql durationMs canceled outcome rowLimit).columns = []) := by
  constructor
  · refine ⟨rfl, ?_, ?_, ?_⟩
    · show (canceled || (normalizeError e).code == some CANCELED_ERROR_CODE) = true ↔ _
      simp [Bool.or_eq_true, beq_iff_eq]
    · intro hc
      show Option.map QueryErrorInfo.message (some _) = some "Query cancelled."
      have hc' : (canceled || (normalizeError e).code == some CANCELED_ERROR_CODE) = true := hc
      simp [hc']
    · intro hc
      show Option.map QueryErrorInfo.message (some _) = some (normalizeError e).message
      have hc' : (canceled || (normalizeError e).code == some CANCELED_ERROR_CODE) = false := hc
      simp [hc']
  · intro herr
    match outcome with
    | .error e' => exact ⟨rfl, rfl⟩
    | .ok result =>
        exfalso
        unfold runCancelableQueryResult at herr
        by_cases h : result.rows.length > rowLimit <;> simp [h] at herr

theorem runQuery_failure_normalization_witness :
    (runCancelableQueryResult "SELECT * FROM missing" 2 false (.error badQueryError)
        DEFAULT_ROW_LIMIT).cancelled = false ∧
    Option.map QueryErrorInfo.message
        (runCancelableQueryResult "SELECT * FROM missing" 2 false (.error badQueryError)
          DEFAULT_ROW_LIMIT).error = some "Bad query" ∧
    (runCancelableQueryResult "SELECT * FROM missing" 2 false (.error badQueryError)
        DEFAULT_ROW_LIMIT).rows = [] ∧
    (runCancelableQueryResult "SELECT * FROM missing" 2 false (.error badQueryError)
        DEFAULT_ROW_LIMIT).columns = [] := by
  have h := runQuery_failure_normalization "SELECT * FROM missing" 2 false badQueryError
    DEFAULT_ROW_LIMIT (.error badQueryError)
  have hc : (runCancelableQueryResult "SELECT * FROM missing" 2 false (.error badQueryError)
      DEFAULT_ROW_LIMIT).cancelled = false := by decide
  have hmsg := h.1.2.2.2 hc
  have hempty := h.2 (by decide)
  exact ⟨hc, by simpa [normalizeError, badQueryError] using hmsg, hempty.1, hempty.2⟩

theorem rowTokens_are_locators (rows : List JsRow)
    (h : ∀ row ∈ rows, ∃ s, jsLookup row ROW_TOKEN_ALIAS = some (JsValue.str s)) :
    rows.map (fun row => some (JsValue.str (rowTokenOf row)))
      = rows.map (fun row => jsLookup row ROW_TOKEN_ALIAS) := by
  refine List.map_congr_left fun row hrow => ?_
  obtain ⟨s, hs⟩ := h row hrow
  simp [rowTokenOf, hs]

/-- C5: a page load for page index `P` and page size `S` issues the single
locator-ordered query with `LIMIT S + 1` and `OFFSET P * S`; when exactly
`S + 1` rows come back the last is dropped and `hasNextPage = true`,
otherwise all rows are visible and `hasNextPage = false`; each visible
row's locator value becomes its row token, and the locator alias is
stripped from the reported column list. -/
theorem reload_pagination (schemaName tableName : String) (currentPage pageSize : Nat)
    (result : EngineResult)
    (hlimit : result.rows.length ≤ pageSize + 1)
    (htok : ∀ row ∈ result.rows, ∃ s, jsLookup row ROW_TOKEN_ALIAS = some (JsValue.str s)) :
    (reloadCompute schemaName tableName currentPage pageSize result).sql
      = "SELECT ctid::text AS " ++ quoteIdentifier ROW_TOKEN_ALIAS ++ ", * FROM " ++
        quoteIdentifier schemaName ++ "." ++ quoteIdentifier tableName ++
        " ORDER BY ctid LIMIT " ++ toString (pageSize + 1) ++ " OFFSET " ++
        toString (currentPage * pageSize) ++ ";" ∧
    (reloadCompute schemaName tableName currentPage pageSize result).columns
      = result.fields.filter (fun fieldName => fieldName != ROW_TOKEN_ALIAS) ∧
    ROW_TOKEN_ALIAS ∉ (reloadCompute schemaName tableName currentPage pageSize result).columns ∧
    (result.rows.length = pageSize + 1 →
      (reloadCompute schemaName tableName currentPage pageSize result).hasNextPage = true ∧
      (reloadCompute schemaName tableName currentPage pageSize result).rows
        = (result.rows.take pageSize).map (fun row => toEditorRow row
            (result.fields.filter (fun fieldName => fieldName != ROW_TOKEN_ALIAS))) ∧
      (reloadCompute schemaName tableName currentPage pageSize result).rows.length
        = pageSize ∧
      (reloadCompute schemaName tableName currentPage pageSize result).rowTokens.map
          (fun t => some (JsValue.str t))
        = (result.rows.take pageSize).map (fun row => jsLookup row ROW_TOKEN_ALIAS)) ∧
    (result.rows.length ≠ pageSize + 1 →
      (reloadCompute schemaName tableName currentPage pageSize result).hasNextPage = false ∧
      (reloadCompute schemaName tableName currentPage pageSize result).rows
        = result.rows.map (fun row => toEditorRow row
            (result.fields.filter (fun fieldName => fieldName != ROW_TOKEN_ALIAS))) ∧
      (reloadCompute schemaName tableName currentPage pageSize result).rowTokens.map
          (fun t => some (JsValue.str t))
        = result.rows.map (fun row => jsLookup row ROW_TOKEN_ALIAS)) := by
  refine ⟨?_, rfl, ?_, ?_, ?_⟩
  · simp only [reloadCompute, buildOpenTableSql]
    simp [String.append_assoc]
  · intro hmem
    rcases List.mem_filter.mp hmem with ⟨_, hne⟩
    simp at hne
  · intro hlen
    have hgt : result.rows.length > pageSize := by omega
    have hnext : decide (result.rows.length > pageSize) = true := by
      simpa using hgt
    refine ⟨?_, ?_, ?_, ?_⟩
    · simp only [reloadCompute, hnext]
    · simp only [reloadCompute, hnext, if_pos]
    · simp only [reloadCompute, hnext, if_pos, List.length_map, List.length_take]
      omega
    · simp only [reloadCompute, hnext, if_pos, List.map_map]
      exact rowTokens_are_locators (result.rows.take pageSize)
        (fun row hrow => htok row (List.take_subset pageSize result.rows hrow))
  · intro hne
    have hlen : result.rows.length ≤ pageSize := by omega
    have hnext : decide (result.rows.length > pageSize) = false := by
      simp
      omega
    refine ⟨?_, ?_, ?_⟩
    · simp only [reloadCompute, hnext]
    · simp only [reloadCompute, hnext]
      simp
    · simp only [reloadCompute, hnext, List.map_map]
      simp only [Bool.false_eq_true, if_false]
      exact rowTokens_are_locators result.rows htok

theorem reload_pagination_witness :
    (reloadCompute "public" "people" 0 2 threeRowPageResult).hasNextPage = true ∧
    (reloadCompute "public" "people" 0 2 threeRowPageResult).rows.length = 2 ∧
    (reloadCompute "public" "people" 0 2 threeRowPageResult).rowTokens.map
        (fun t => some (JsValue.str t))
      = (threeRowPageResult.rows.take 2).map (fun row => jsLookup row ROW_TOKEN_ALIAS) ∧
    ROW_TOKEN_ALIAS ∉ (reloadCompute "public" "people" 0 2 threeRowPageResult).columns := by
  have htok : ∀ row ∈ threeRowPageResult.rows,
      ∃ s, jsLookup row ROW_TOKEN_ALIAS = some (JsValue.str s) := by
    intro row hrow
    have hcases : row = tokenRow1 ∨ row = tokenRow2 ∨ row = tokenRow3 := by
      simpa [threeRowPageResult] using hrow
    rcases hcases with rfl | rfl | rfl
    · exact ⟨"(0,1)", by decide⟩
    · exact ⟨"(0,2)", by decide⟩
    · exact ⟨"(0,3)", by decide⟩
  have h := reload_pagination "public" "people" 0 2 threeRowPageResult (by decide) htok
  have hcase := h.2.2.2.1 (by decide)
  exact ⟨hcase.1, hcase.2.2.1, hcase.2.2.2, h.2.2.1⟩

theorem buildSetClauses_all_valid (columns : List String)
    (updates : List DataEditorCellUpdate) :
    ∀ (setClauses : List String) (values : List (Option String)),
      (∀ u ∈ updates, (jsColumnName columns u.columnIndex).isSome = true) →
      buildSetClauses columns updates setClauses values
        = (setClauses ++ (List.enumFrom (values.length + 1) updates).map
            (fun p => quoteIdentifier (resolvedName columns p.2) ++ " = $" ++ toString p.1),
           values ++ updates.map cellParam) := by
  induction updates with
  | nil => intro setClauses values _; simp [buildSetClauses, List.enumFrom]
  | cons u rest ih =>
    intro setClauses values hvalid
    obtain ⟨name, hname⟩ := Option.isSome_iff_exists.mp (hvalid u (by simp))
    have hres : resolvedName columns u = name := by simp [resolvedName, hname]
    simp only [buildSetClauses, hname]
    rw [ih _ _ (fun v hv => hvalid v (by simp [hv]))]
    simp [hres, List.enumFrom, List.append_assoc]

theorem buildInsertParts_all_valid (columns : List String)
    (updates : List DataEditorCellUpdate) :
    ∀ (seenColumns : List Nat) (columnNames placeholders : List String)
      (values : List (Option String)),
      (∀ u ∈ updates, (jsColumnName columns u.columnIndex).isSome = true) →
      (updates.map DataEditorCellUpdate.columnIndex).Nodup →
      (∀ u ∈ updates, u.columnIndex ∉ seenColumns) →
      buildInsertParts columns updates seenColumns columnNames placeholders values
        = (columnNames ++ updates.map (fun u => quoteIdentifier (resolvedName columns u)),
           placeholders ++ (List.enumFrom (values.length + 1) updates).map
             (fun p => "$" ++ toString p.1),
           values ++ updates.map cellParam) := by
  induction updates with
  | nil => intro seen cn ph vs _ _ _; simp [buildInsertParts, List.enumFrom]
  | cons u rest ih =>
    intro seen cn ph vs hvalid hnodup hseen
    have hnotin : u.columnIndex ∉ seen := hseen u (by simp)
    obtain ⟨name, hname⟩ := Option.isSome_iff_exists.mp (hvalid u (by simp))
    have hres : resolvedName columns u = name := by simp [resolvedName, hname]
    rw [List.map_cons] at hnodup
    have hnodup' := List.nodup_cons.mp hnodup
    simp only [buildInsertParts, if_neg hnotin, hname]
    rw [ih (seen ++ [u.columnIndex]) _ _ _
      (fun v hv => hvalid v (by simp [hv])) hnodup'.2 ?_]
    · simp [hres, List.enumFrom, List.append_assoc]
    · intro v hv
      simp only [List.mem_append, List.mem_singleton]
      rintro (h1 | h2)
      · exact hseen v (by simp [hv]) h1
      · exact hnodup'.1 (h2 ▸ List.mem_map_of_mem DataEditorCellUpdate.columnIndex hv)

theorem setClause_text_from_columnIndexes (columns : List String) :
    ∀ (xs ys : List DataEditorCellUpdate) (n : Nat),
      xs.map DataEditorCellUpdate.columnIndex = ys.map DataEditorCellUpdate.columnIndex →
      (List.enumFrom n xs).map
          (fun p => quoteIdentifier (resolvedName columns p.2) ++ " = $" ++ toString p.1)
        = (List.enumFrom n ys).map
          (fun p => quoteIdentifier (resolvedName columns p.2) ++ " = $" ++ toString p.1) := by
  intro xs
  induction xs with
  | nil =>
    intro ys n h
    rw [List.map_eq_nil_iff.mp h.symm]
  | cons x xs ih =>
    intro ys n h
    cases ys with
    | nil => simp at h
    | cons y ys' =>
      simp only [List.map_cons, List.cons.injEq] at h
      have hhead : resolvedName columns x = resolvedName columns y := by
        simp [resolvedName, h.1]
      simp only [List.enumFrom, List.map_cons, hhead, ih ys' (n + 1) h.2]

theorem buildUpdateStatement_closed (table : TableContext) (columns : List String)
    (updates : List DataEditorCellUpdate) (rowToken : String)
    (hval : ∀ u ∈ updates, (jsColumnName columns u.columnIndex).isSome = true)
    (hne : updates ≠ []) :
    buildUpdateStatement table columns updates rowToken
      = some { sql := "UPDATE " ++ quoteIdentifier table.schemaName ++ "." ++
                 quoteIdentifier table.tableName ++ " SET " ++
                 String.intercalate ", " ((List.enumFrom 1 updates).map
                   (fun p => quoteIdentifier (resolvedName columns p.2) ++ " = $" ++
                     toString p.1)) ++
                 " WHERE ctid = $" ++ toString (updates.length + 1) ++ "::tid;"
               values := updates.map cellParam ++ [some rowToken] } := by
  unfold buildUpdateStatement
  rw [if_neg (by simpa [List.isEmpty_iff] using hne)]
  rw [buildSetClauses_all_valid columns updates [] [] hval]
  have hlen : ((List.enumFrom (List.length ([] : List (Option String)) + 1) updates).map
      (fun p => quoteIdentifier (resolvedName columns p.2) ++ " = $" ++ toString p.1)).length
      = updates.length := by
    simp [List.enumFrom_length]
  rw [if_neg]
  · simp [List.append_assoc, String.append_assoc]
  · simp only [List.nil_append, List.isEmpty_iff]
    intro hnil
    rw [hnil] at hlen
    simp at hlen
    exact hne (List.eq_nil_of_length_eq_zero hlen.symm)

theorem buildInsertStatement_closed (table : TableContext) (columns : List String)
    (insertValues : List DataEditorCellUpdate)
    (hval : ∀ u ∈ insertValues, (jsColumnName columns u.columnIndex).isSome = true)
    (hne : insertValues ≠ [])
    (hnodup : (insertValues.map DataEditorCellUpdate.columnIndex).Nodup) :
    buildInsertStatement table columns insertValues
      = some { sql := "INSERT INTO " ++ quoteIdentifier table.schemaName ++ "." ++
                 quoteIdentifier table.tableName ++ " (" ++
                 String.intercalate ", " (insertValues.map
                   (fun u => quoteIdentifier (resolvedName columns u))) ++
                 ") VALUES (" ++
                 String.intercalate ", " ((List.enumFrom 1 insertValues).map
                   (fun p => "$" ++ toString p.1)) ++ ");"
               values := insertValues.map cellParam } := by
  unfold buildInsertStatement
  rw [if_neg (by simpa [List.isEmpty_iff] using hne)]
  rw [buildInsertParts_all_valid columns insertValues [] [] [] [] hval hnodup
    (by intro u _; simp)]
  rw [if_neg]
  · simp [String.append_assoc]
  · simp only [List.nil_append, List.isEmpty_iff]
    intro hnil
    have := congrArg List.length hnil
    simp at this
    exact hne this

/-- C9: every write-back statement is generated parameterized. A valid
update change builds exactly
`UPDATE <q schema>.<q table> SET <q col> = $k, ... WHERE ctid = $(m+1)::tid;`
with the cell parameters (SQL null when the null flag is set) followed by
the row token as the bound-value list; a valid duplicate-free insert change
builds exactly `INSERT INTO <q schema>.<q table> (<q cols>) VALUES ($1...);`
with the cell parameters as the bound values; every identifier goes through
`quoteIdentifier` (double quotes, embedded quotes doubled); and the SQL text
depends only on the column indexes — never on the cell values or the row
token, which reach the database only through the bound-parameter list. -/
theorem build_statements_parameterized (table : TableContext) (columns : List String)
    (updates : List DataEditorCellUpdate) (rowToken : String)
    (insertValues : List DataEditorCellUpdate)
    (hvalU : ∀ u ∈ updates, (jsColumnName columns u.columnIndex).isSome = true)
    (hneU : updates ≠ [])
    (hvalI : ∀ u ∈ insertValues, (jsColumnName columns u.columnIndex).isSome = true)
    (hneI : insertValues ≠ [])
    (hnodupI : (insertValues.map DataEditorCellUpdate.columnIndex).Nodup) :
    buildUpdateStatement table columns updates rowToken
      = some { sql := "UPDATE " ++ quoteIdentifier table.schemaName ++ "." ++
                 quoteIdentifier table.tableName ++ " SET " ++
                 String.intercalate ", " ((List.enumFrom 1 updates).map
                   (fun p => quoteIdentifier (resolvedName columns p.2) ++ " = $" ++
                     toString p.1)) ++
                 " WHERE ctid = $" ++ toString (updates.length + 1) ++ "::tid;"
               values := updates.map cellParam ++ [some rowToken] } ∧
    buildInsertStatement table columns insertValues
      = some { sql := "INSERT INTO " ++ quoteIdentifier table.schemaName ++ "." ++
                 quoteIdentifier table.tableName ++ " (" ++
                 String.intercalate ", " (insertValues.map
                   (fun u => quoteIdentifier (resolvedName columns u))) ++
                 ") VALUES (" ++
                 String.intercalate ", " ((List.enumFrom 1 insertValues).map
                   (fun p => "$" ++ toString p.1)) ++ ");"
               values := insertValues.map cellParam } ∧
    (∀ (updates' : List DataEditorCellUpdate) (rowToken' : String),
      updates'.map DataEditorCellUpdate.columnIndex
          = updates.map DataEditorCellUpdate.columnIndex →
      Option.map SqlStatement.sql (buildUpdateStatement table columns updates' rowToken')
        = Option.map SqlStatement.sql (buildUpdateStatement table columns updates rowToken)) := by
  refine ⟨buildUpdateStatement_closed table columns updates rowToken hvalU hneU,
    buildInsertStatement_closed table columns insertValues hvalI hneI hnodupI, ?_⟩
  intro updates' rowToken' hmap
  have hval' : ∀ u ∈ updates', (jsColumnName columns u.columnIndex).isSome = true := by
    intro u hu
    have hmem : u.columnIndex ∈ updates.map DataEditorCellUpdate.columnIndex := by
      rw [← hmap]
      exact List.mem_map_of_mem DataEditorCellUpdate.columnIndex hu
    obtain ⟨v, hv, hvc⟩ := List.mem_map.mp hmem
    have := hvalU v hv
    rwa [hvc] at this
  have hne' : updates' ≠ [] := by
    intro h0
    rw [h0] at hmap
    exact hneU (List.map_eq_nil_iff.mp hmap.symm)
  rw [buildUpdateStatement_closed table columns updates rowToken hvalU hneU,
    buildUpdateStatement_closed table columns updates' rowToken' hval' hne']
  have hlen : updates'.length = updates.length := by
    have := congrArg List.length hmap
    simpa using this
  simp only [Option.map_some']
  rw [setClause_text_from_columnIndexes columns updates' updates 1 hmap, hlen]

theorem build_statements_parameterized_witness :
    buildUpdateStatement { schemaName := "public", tableName := "people" } ["id", "name"]
        [{ columnIndex := 1, value := "Ada Lovelace", isNull := false }] "(0,1)"
      = some { sql := "UPDATE \"public\".\"people\" SET \"name\" = $1 WHERE ctid = $2::tid;"
               values := [some "Ada Lovelace", some "(0,1)"] } ∧
    buildInsertStatement { schemaName := "public", tableName := "people" } ["id", "name"]
        [{ columnIndex := 1, value := "Grace", isNull := false },
         { columnIndex := 0, value := "", isNull := true }]
      = some { sql := "INSERT INTO \"public\".\"people\" (\"name\", \"id\") VALUES ($1, $2);"
               values := [some "Grace", none] } := by
  have h := build_statements_parameterized { schemaName := "public", tableName := "people" }
    ["id", "name"] [{ columnIndex := 1, value := "Ada Lovelace", isNull := false }] "(0,1)"
    [{ columnIndex := 1, value := "Grace", isNull := false },
     { columnIndex := 0, value := "", isNull := true }]
    (by decide) (by decide) (by decide) (by decide) (by decide)
  exact ⟨h.1.trans (by decide), h.2.1.trans (by decide)⟩

theorem buildSetClauses_filter_valid (columns : List String)
    (updates : List DataEditorCellUpdate) :
    ∀ (setClauses : List String) (values : List (Option String)),
      buildSetClauses columns updates setClauses values
        = buildSetClauses columns
            (updates.filter fun u => (jsColumnName columns u.columnIndex).isSome)
            setClauses values := by
  induction updates with
  | nil => intro _ _; rfl
  | cons u rest ih =>
    intro setClauses values
    rcases hname : jsColumnName columns u.columnIndex with _ | name
    · have hpu : (jsColumnName columns u.columnIndex).isSome = false := by simp [hname]
      simp only [buildSetClauses, hname, List.filter_cons, hpu, if_false,
        Bool.false_eq_true]
      exact ih setClauses values
    · have hpu : (jsColumnName columns u.columnIndex).isSome = true := by simp [hname]
      simp only [List.filter_cons, hpu, if_true]
      simp only [buildSetClauses, hname]
      exact ih _ _

theorem buildSetClauses_fst_length (columns : List String)
    (updates : List DataEditorCellUpdate) :
    ∀ (setClauses : List String) (values : List (Option String)),
      (buildSetClauses columns updates setClauses values).1.length
        = setClauses.length
          + (updates.filter fun u => (jsColumnName columns u.columnIndex).isSome).length := by
  induction updates with
  | nil => intro _ _; simp [buildSetClauses]
  | cons u rest ih =>
    intro setClauses values
    rcases hname : jsColumnName columns u.columnIndex with _ | name
    · have hpu : (jsColumnName columns u.columnIndex).isSome = false := by simp [hname]
      simp only [buildSetClauses, hname, List.filter_cons, hpu, if_false,
        Bool.false_eq_true]
      exact ih setClauses values
    · simp only [buildSetClauses, hname, List.filter_cons, Option.isSome_some, if_true]
      rw [ih _ _]
      simp only [List.length_append, List.length_cons, List.length_nil]
      omega

theorem buildUpdateStatement_drops_invalid (table : TableContext) (columns : List String)
    (updates : List DataEditorCellUpdate) (rowToken : String) :
    buildUpdateStatement table columns updates rowToken
      = buildUpdateStatement table columns
          (updates.filter fun u => (jsColumnName columns u.columnIndex).isSome) rowToken := by
  by_cases h2 : (updates.filter fun u => (jsColumnName columns u.columnIndex).isSome) = []
  · have hR : buildUpdateStatement table columns
        (updates.filter fun u => (jsColumnName columns u.columnIndex).isSome) rowToken
        = none := by
      rw [h2]
      rfl
    have hL : buildUpdateStatement table columns updates rowToken = none := by
      unfold buildUpdateStatement
      by_cases h1 : updates = []
      · subst h1; rfl
      · rw [if_neg (show ¬updates.isEmpty = true from fun h => h1 (List.isEmpty_iff.mp h))]
        have hlen := buildSetClauses_fst_length columns updates [] []
        rw [h2] at hlen
        have hnil : (buildSetClauses columns updates [] []).1 = [] :=
          List.length_eq_zero.mp (by simpa using hlen)
        rw [if_pos (show (buildSetClauses columns updates [] []).1.isEmpty = true from
          List.isEmpty_iff.mpr hnil)]
    rw [hL, hR]
  · by_cases h1 : updates = []
    · subst h1
      exact absurd rfl h2
    · unfold buildUpdateStatement
      rw [if_neg (show ¬updates.isEmpty = true from fun h => h1 (List.isEmpty_iff.mp h)),
        if_neg (show ¬(updates.filter fun u =>
            (jsColumnName columns u.columnIndex).isSome).isEmpty = true from
          fun h => h2 (List.isEmpty_iff.mp h)),
        buildSetClauses_filter_valid columns updates [] []]

theorem buildInsertParts_sanitize (columns : List String)
    (updates : List DataEditorCellUpdate) :
    ∀ (seen : List Nat) (columnNames placeholders : List String)
      (values : List (Option String)),
      buildInsertParts columns updates seen columnNames placeholders values
        = buildInsertParts columns (sanitizeInsertValues columns seen updates) seen
            columnNames placeholders values := by
  induction updates with
  | nil => intro _ _ _ _; rfl
  | cons u rest ih =>
    intro seen cn ph vs
    by_cases hseen : u.columnIndex ∈ seen
    · simp only [buildInsertParts, sanitizeInsertValues, if_pos hseen]
      exact ih seen cn ph vs
    · rcases hname : jsColumnName columns u.columnIndex with _ | name
      · simp only [buildInsertParts, sanitizeInsertValues, if_neg hseen, hname]
        exact ih seen cn ph vs
      · simp only [buildInsertParts, sanitizeInsertValues, if_neg hseen, hname]
        exact ih (seen ++ [u.columnIndex]) _ _ _

theorem buildInsertParts_fst_length (columns : List String)
    (updates : List DataEditorCellUpdate) :
    ∀ (seen : List Nat) (columnNames placeholders : List String)
      (values : List (Option String)),
      (buildInsertParts columns updates seen columnNames placeholders values).1.length
        = columnNames.length + (sanitizeInsertValues columns seen updates).length := by
  induction updates with
  | nil => intro _ _ _ _; simp [buildInsertParts, sanitizeInsertValues]
  | cons u rest ih =>
    intro seen cn ph vs
    by_cases hseen : u.columnIndex ∈ seen
    · simp only [buildInsertParts, sanitizeInsertValues, if_pos hseen]
      exact ih seen cn ph vs
    · rcases hname : jsColumnName columns u.columnIndex with _ | name
      · simp only [buildInsertParts, sanitizeInsertValues, if_neg hseen, hname]
        exact ih seen cn ph vs
      · simp only [buildInsertParts, sanitizeInsertValues, if_neg hseen, hname]
        rw [ih (seen ++ [u.columnIndex]) _ _ _]
        simp only [List.length_append, List.length_cons, List.length_nil]
        omega

theorem buildInsertStatement_dedupes (table : TableContext) (columns : List String)
    (insertValues : List DataEditorCellUpdate) :
    buildInsertStatement table columns insertValues
      = buildInsertStatement table columns (sanitizeInsertValues columns [] insertValues) := by
  by_cases h2 : sanitizeInsertValues columns [] insertValues = []
  · have hR : buildInsertStatement table columns
        (sanitizeInsertValues columns [] insertValues) = none := by
      rw [h2]
      rfl
    have hL : buildInsertStatement table columns insertValues = none := by
      unfold buildInsertStatement
      by_cases h1 : insertValues = []
      · subst h1; rfl
      · rw [if_neg (show ¬insertValues.isEmpty = true from
          fun h => h1 (List.isEmpty_iff.mp h))]
        have hlen := buildInsertParts_fst_length columns insertValues [] [] [] []
        rw [h2] at hlen
        have hnil : (buildInsertParts columns insertValues [] [] [] []).1 = [] :=
          List.length_eq_zero.mp (by simpa using hlen)
        rw [if_pos (show (buildInsertParts columns insertValues [] [] [] []).1.isEmpty
            = true from List.isEmpty_iff.mpr hnil)]
    rw [hL, hR]
  · by_cases h1 : insertValues = []
    · subst h1
      exact absurd rfl h2
    · unfold buildInsertStatement
      rw [if_neg (show ¬insertValues.isEmpty = true from
          fun h => h1 (List.isEmpty_iff.mp h)),
        if_neg (show ¬(sanitizeInsertValues columns [] insertValues).isEmpty = true from
          fun h => h2 (List.isEmpty_iff.mp h)),
        buildInsertParts_sanitize columns insertValues [] [] [] []]

theorem sanitizeInsertValues_spec (columns : List String)
    (updates : List DataEditorCellUpdate) :
    ∀ seen : List Nat,
      (sanitizeInsertValues columns seen updates).Sublist updates ∧
      (∀ u ∈ sanitizeInsertValues columns seen updates,
        (jsColumnName columns u.columnIndex).isSome = true ∧ u.columnIndex ∉ seen) ∧
      ((sanitizeInsertValues columns seen updates).map
        DataEditorCellUpdate.columnIndex).Nodup := by
  induction updates with
  | nil => intro seen; simp [sanitizeInsertValues]
  | cons u rest ih =>
    intro seen
    by_cases hseen : u.columnIndex ∈ seen
    · simp only [sanitizeInsertValues, if_pos hseen]
      exact ⟨(ih seen).1.cons u, (ih seen).2.1, (ih seen).2.2⟩
    · rcases hname : jsColumnName columns u.columnIndex with _ | name
      · simp only [sanitizeInsertValues, if_neg hseen, hname]
        exact ⟨(ih seen).1.cons u, (ih seen).2.1, (ih seen).2.2⟩
      · simp only [sanitizeInsertValues, if_neg hseen, hname]
        have ih' := ih (seen ++ [u.columnIndex])
        refine ⟨ih'.1.cons₂ u, ?_, ?_⟩
        · intro v hv
          rcases List.mem_cons.mp hv with rfl | hv'
          · exact ⟨by simp [hname], hseen⟩
          · have := ih'.2.1 v hv'
            exact ⟨this.1, fun hmem => this.2 (by simp [hmem])⟩
        · rw [List.map_cons, List.nodup_cons]
          refine ⟨?_, ih'.2.2⟩
          intro hmem
          obtain ⟨v, hv, hvc⟩ := List.mem_map.mp hmem
          exact (ih'.2.1 v hv).2 (by simp [hvc])

/-- C10: the write-back statement builders sanitize the caller-supplied
cell-change lists — a cell change whose column index has no (truthy) column
name is silently dropped by both builders, the insert builder keeps only the
first cell change per column index (`sanitizeInsertValues` is a
duplicate-free, valid-only sublist of the input), and an operation whose
cell changes are all dropped produces no statement at all. -/
theorem statement_builders_sanitize (table : TableContext) (columns : List String)
    (updates insertValues : List DataEditorCellUpdate) (rowToken : String) :
    buildUpdateStatement table columns updates rowToken
      = buildUpdateStatement table columns
          (updates.filter fun u => (jsColumnName columns u.columnIndex).isSome) rowToken ∧
    buildInsertStatement table columns insertValues
      = buildInsertStatement table columns
          (sanitizeInsertValues columns [] insertValues) ∧
    (sanitizeInsertValues columns [] insertValues).Sublist insertValues ∧
    (∀ u ∈ sanitizeInsertValues columns [] insertValues,
      (jsColumnName columns u.columnIndex).isSome = true) ∧
    ((sanitizeInsertValues columns [] insertValues).map
      DataEditorCellUpdate.columnIndex).Nodup ∧
    ((updates.filter fun u => (jsColumnName columns u.columnIndex).isSome) = [] →
      buildUpdateStatement table columns updates rowToken = none) ∧
    (sanitizeInsertValues columns [] insertValues = [] →
      buildInsertStatement table columns insertValues = none) := by
  have hspec := sanitizeInsertValues_spec columns insertValues []
  refine ⟨buildUpdateStatement_drops_invalid table columns updates rowToken,
    buildInsertStatement_dedupes table columns insertValues,
    hspec.1, fun u hu => (hspec.2.1 u hu).1, hspec.2.2, ?_, ?_⟩
  · intro h2
    rw [buildUpdateStatement_drops_invalid table columns updates rowToken, h2]
    rfl
  · intro h2
    rw [buildInsertStatement_dedupes table columns insertValues, h2]
    rfl

theorem statement_builders_sanitize_witness :
    buildUpdateStatement { schemaName := "public", tableName := "people" } ["a"]
        [{ columnIndex := 5, value := "x", isNull := false }] "(0,1)" = none ∧
    buildInsertStatement { schemaName := "public", tableName := "people" } ["a"]
        [{ columnIndex := 7, value := "y", isNull := false }] = none := by
  have h := statement_builders_sanitize { schemaName := "public", tableName := "people" }
    ["a"] [{ columnIndex := 5, value := "x", isNull := false }]
    [{ columnIndex := 7, value := "y", isNull := false }] "(0,1)"
  exact ⟨h.2.2.2.2.2.1 (by decide), h.2.2.2.2.2.2 (by decide)⟩

theorem saveLoop_events_count (exec : Nat → Except JsError (Option Nat))
    (table : TableContext) (columns activeRowTokens : List String) (e : DbEvent)
    (he : ∀ s, e ≠ DbEvent.stmt s) :
    ∀ (changes : List DataEditorChange) (n updatedRows insertedRows : Nat),
      ((saveLoop exec table columns activeRowTokens changes n updatedRows
        insertedRows).events).count e = 0 := by
  intro changes
  induction changes with
  | nil => intro n u v; simp [saveLoop]
  | cons change rest ih =>
    intro n u v
    rcases hs : statementFor table columns activeRowTokens change with _ | p
    · simp only [saveLoop, hs]
      exact ih n u v
    · obtain ⟨statement, isInsert⟩ := p
      rcases hx : exec n with e' | c
      · simp only [saveLoop, hs, hx]
        rw [List.count_eq_zero]
        simp only [List.mem_singleton]
        exact he statement.sql
      · simp only [saveLoop, hs, hx]
        rw [List.count_cons]
        have hne : (DbEvent.stmt statement.sql == e) = false :=
          beq_eq_false_iff_ne.mpr (fun h => he statement.sql h.symm)
        rw [hne]
        simp [ih (n + 1)]

theorem saveChangesRun_count_one (exec : Nat → Except JsError (Option Nat))
    (table : TableContext) (columns activeRowTokens : List String)
    (changes : List DataEditorChange) (e : DbEvent)
    (he : ∀ s, e ≠ DbEvent.stmt s)
    (hcase : e = DbEvent.release ∨ e = DbEvent.connect) :
    ((saveChangesRun (Except.ok ()) exec table columns activeRowTokens changes).1).count e
      = 1 := by
  have hsl := saveLoop_events_count exec table columns activeRowTokens e he changes 1 0 0
  simp only [saveChangesRun]
  rcases h0 : exec 0 with e0 | c0
  · rcases hcase with rfl | rfl <;> rfl
  · rcases hle : (saveLoop exec table columns activeRowTokens changes 1 0 0).err with _ | e1
    · rcases hcm : exec (saveLoop exec table columns activeRowTokens changes 1 0 0).nextCall
        with e2 | c2 <;>
        rcases hcase with rfl | rfl <;>
        simp +decide [List.count_append, hsl]
    · rcases hcase with rfl | rfl <;> simp +decide [List.count_append, hsl]

/-- C4: the dedicated checked-out connection is released exactly once on
every execution path of a query execution and of a write-back save
(success, normal failure, or cancellation-induced failure, including a
statement throwing mid-loop); when checkout itself fails no client was
obtained and nothing is released. Checkout likewise happens exactly once. -/
theorem connection_released_exactly_once (sql : String)
    (connect : Except JsError Unit) (queryOutcome : Except JsError EngineResult)
    (exec : Nat → Except JsError (Option Nat)) (table : TableContext)
    (columns activeRowTokens : List String) (changes : List DataEditorChange) :
    (runQueryEvents connect queryOutcome sql).count DbEvent.release
      = (match connect with | .ok _ => 1 | .error _ => 0) ∧
    (runQueryEvents connect queryOutcome sql).count DbEvent.connect
      = (match connect with | .ok _ => 1 | .error _ => 0) ∧
    ((saveChangesRun connect exec table columns activeRowTokens changes).1).count
        DbEvent.release
      = (match connect with | .ok _ => 1 | .error _ => 0) ∧
    ((saveChangesRun connect exec table columns activeRowTokens changes).1).count
        DbEvent.connect
      = (match connect with | .ok _ => 1 | .error _ => 0) := by
  rcases connect with e | u
  · refine ⟨?_, ?_, ?_, ?_⟩ <;> rfl
  · refine ⟨?_, ?_, ?_, ?_⟩
    · rcases queryOutcome with e' | r <;> rfl
    · rcases queryOutcome with e' | r <;> rfl
    · exact saveChangesRun_count_one exec table columns activeRowTokens changes
        DbEvent.release (by intro s h; cases h) (Or.inl rfl)
    · exact saveChangesRun_count_one exec table columns activeRowTokens changes
        DbEvent.connect (by intro s h; cases h) (Or.inr rfl)

theorem saveLoop_all_ok (exec : Nat → Except JsError (Option Nat))
    (table : TableContext) (columns activeRowTokens : List String)
    (hok : ∀ i, ∃ c, exec i = Except.ok c) :
    ∀ (changes : List DataEditorChange) (n updatedRows insertedRows : Nat),
      (saveLoop exec table columns activeRowTokens changes n updatedRows
          insertedRows).events
        = (builtStatements table columns activeRowTokens changes).map
            (fun s => DbEvent.stmt s.sql) ∧
      (saveLoop exec table columns activeRowTokens changes n updatedRows
          insertedRows).err = none := by
  intro changes
  induction changes with
  | nil => intro n u v; simp [saveLoop, builtStatements]
  | cons change rest ih =>
    intro n u v
    rcases hs : statementFor table columns activeRowTokens change with _ | p
    · simp only [saveLoop, hs, builtStatements, List.filterMap_cons, Option.map_none']
      exact ih n u v
    · obtain ⟨statement, isInsert⟩ := p
      obtain ⟨c, hc⟩ := hok n
      simp only [saveLoop, hs, hc, builtStatements, List.filterMap_cons, Option.map_some']
      have hrest := ih (n + 1) (if isInsert then u else u + c.getD 0)
        (if isInsert then v + c.getD 0 else v)
      simp only [builtStatements] at hrest
      simp [hrest.1, hrest.2]

theorem saveLoop_fail_at (exec : Nat → Except JsError (Option Nat))
    (table : TableContext) (columns activeRowTokens : List String) (e : JsError) :
    ∀ (changes : List DataEditorChange) (j n updatedRows insertedRows : Nat),
      (∀ i, i < j → ∃ c, exec (n + i) = Except.ok c) →
      exec (n + j) = Except.error e →
      j < (builtStatements table columns activeRowTokens changes).length →
      (saveLoop exec table columns activeRowTokens changes n updatedRows
          insertedRows).events
        = ((builtStatements table columns activeRowTokens changes).take (j + 1)).map
            (fun s => DbEvent.stmt s.sql) ∧
      (saveLoop exec table columns activeRowTokens changes n updatedRows
          insertedRows).err = some e := by
  intro changes
  induction changes with
  | nil =>
    intro j n u v _ _ hlen
    simp [builtStatements] at hlen
  | cons change rest ih =>
    intro j n u v hok hj hlen
    rcases hs : statementFor table columns activeRowTokens change with _ | p
    · simp only [builtStatements, List.filterMap_cons, Option.map_none', hs] at hlen ⊢
      simp only [saveLoop, hs]
      have := ih j n u v hok hj (by simpa [builtStatements] using hlen)
      simpa [builtStatements] using this
    · obtain ⟨statement, isInsert⟩ := p
      cases j with
      | zero =>
        have hx : exec n = Except.error e := by simpa using hj
        simp only [saveLoop, hs, hx, builtStatements, List.filterMap_cons,
          Option.map_some']
        simp
      | succ k =>
        obtain ⟨c, hc⟩ := by
          have := hok 0 (Nat.succ_pos k)
          simpa using this
        simp only [saveLoop, hs, hc, builtStatements, List.filterMap_cons,
          Option.map_some']
        have hok' : ∀ i, i < k → ∃ c', exec (n + 1 + i) = Except.ok c' := by
          intro i hi
          have := hok (i + 1) (by omega)
          simpa [Nat.add_assoc, Nat.add_comm 1 i] using this
        have hj' : exec (n + 1 + k) = Except.error e := by
          have harith : n + 1 + k = n + (k + 1) := by omega
          rw [harith]
          exact hj
        have hlen' : k < (builtStatements table columns activeRowTokens rest).length := by
          simp only [builtStatements, List.filterMap_cons, Option.map_some',
            List.length_cons, hs] at hlen ⊢
          omega
        have hrest := ih k (n + 1) (if isInsert then u else u + c.getD 0)
          (if isInsert then v + c.getD 0 else v) hok' hj' hlen'
        simp only [builtStatements] at hrest
        simp [hrest.1, hrest.2, List.take_succ_cons]

/-- C8: write-back is atomic and ordered — on a run where every call on the
dedicated connection succeeds, the trace is exactly checkout, `BEGIN`, the
compiled statements in compiled order, `COMMIT`, release, and the save
returns counts; if the (j+1)-st statement throws after j successful ones,
the trace executes exactly the first j+1 compiled statements in order, then
`ROLLBACK` and release — no `COMMIT` ever happens and the whole save fails,
so nothing is committed unless every statement succeeded. -/
theorem saveChanges_atomic_ordered :
    (∀ (exec : Nat → Except JsError (Option Nat)) (table : TableContext)
        (columns activeRowTokens : List String) (changes : List DataEditorChange),
      (∀ i, ∃ c, exec i = Except.ok c) →
      (saveChangesRun (Except.ok ()) exec table columns activeRowTokens changes).1
          = [DbEvent.connect, DbEvent.begin_tx] ++
            (builtStatements table columns activeRowTokens changes).map
              (fun s => DbEvent.stmt s.sql) ++
            [DbEvent.commit_tx, DbEvent.release] ∧
        ∃ counts, (saveChangesRun (Except.ok ()) exec table columns activeRowTokens
          changes).2 = Except.ok counts) ∧
    (∀ (exec : Nat → Except JsError (Option Nat)) (table : TableContext)
        (columns activeRowTokens : List String) (changes : List DataEditorChange)
        (j : Nat) (e : JsError),
      (∀ i, i ≤ j → ∃ c, exec i = Except.ok c) →
      exec (j + 1) = Except.error e →
      j < (builtStatements table columns activeRowTokens changes).length →
      (saveChangesRun (Except.ok ()) exec table columns activeRowTokens changes).1
          = [DbEvent.connect, DbEvent.begin_tx] ++
            ((builtStatements table columns activeRowTokens changes).take (j + 1)).map
              (fun s => DbEvent.stmt s.sql) ++
            [DbEvent.rollback_tx, DbEvent.release] ∧
        DbEvent.commit_tx ∉
          (saveChangesRun (Except.ok ()) exec table columns activeRowTokens changes).1 ∧
        ∃ eFinal, (saveChangesRun (Except.ok ()) exec table columns activeRowTokens
          changes).2 = Except.error eFinal) := by
  constructor
  · intro exec table columns activeRowTokens changes hok
    obtain ⟨c0, hc0⟩ := hok 0
    have hloop := saveLoop_all_ok exec table columns activeRowTokens hok changes 1 0 0
    obtain ⟨cN, hcN⟩ := hok (saveLoop exec table columns activeRowTokens changes 1 0 0).nextCall
    simp only [saveChangesRun, hc0, hloop.2, hcN]
    exact ⟨by rw [hloop.1], ⟨_, rfl⟩⟩
  · intro exec table columns activeRowTokens changes j e hok hj hlen
    obtain ⟨c0, hc0⟩ := hok 0 (Nat.zero_le j)
    have hok' : ∀ i, i < j → ∃ c, exec (1 + i) = Except.ok c := by
      intro i hi
      have := hok (i + 1) (by omega)
      simpa [Nat.add_comm 1 i] using this
    have hj' : exec (1 + j) = Except.error e := by
      rw [Nat.add_comm 1 j]
      exact hj
    have hloop := saveLoop_fail_at exec table columns activeRowTokens e changes j 1 0 0
      hok' hj' hlen
    simp only [saveChangesRun, hc0, hloop.2]
    refine ⟨by rw [hloop.1], ?_, ⟨_, rfl⟩⟩
    rw [hloop.1]
    intro hmem
    rw [List.mem_append, List.mem_append] at hmem
    rcases hmem with (h | hmid) | h
    · simp at h
    · obtain ⟨s, _, heq⟩ := List.mem_map.mp hmid
      simp at heq
    · simp at h

theorem saveChanges_atomic_ordered_witness :
    (saveChangesRun (Except.ok ()) execAllOk witnessTable ["name"] ["(0,1)"]
        witnessChanges).1
      = [DbEvent.connect, DbEvent.begin_tx,
         DbEvent.stmt "UPDATE \"public\".\"people\" SET \"name\" = $1 WHERE ctid = $2::tid;",
         DbEvent.commit_tx, DbEvent.release] ∧
    (∃ counts, (saveChangesRun (Except.ok ()) execAllOk witnessTable ["name"] ["(0,1)"]
        witnessChanges).2 = Except.ok counts) ∧
    (saveChangesRun (Except.ok ()) execFailAfterBegin witnessTable ["name"] ["(0,1)"]
        witnessChanges).1
      = [DbEvent.connect, DbEvent.begin_tx,
         DbEvent.stmt "UPDATE \"public\".\"people\" SET \"name\" = $1 WHERE ctid = $2::tid;",
         DbEvent.rollback_tx, DbEvent.release] ∧
    DbEvent.commit_tx ∉ (saveChangesRun (Except.ok ()) execFailAfterBegin witnessTable
        ["name"] ["(0,1)"] witnessChanges).1 ∧
    (∃ eFinal, (saveChangesRun (Except.ok ()) execFailAfterBegin witnessTable ["name"]
        ["(0,1)"] witnessChanges).2 = Except.error eFinal) := by
  have hA := saveChanges_atomic_ordered.1 execAllOk witnessTable ["name"] ["(0,1)"]
    witnessChanges (fun i => ⟨some 1, rfl⟩)
  have hB := saveChanges_atomic_ordered.2 execFailAfterBegin witnessTable ["name"]
    ["(0,1)"] witnessChanges 0 JsError.nonObj
    (fun i hi => by
      have hi0 : i = 0 := Nat.le_zero.mp hi
      subst hi0
      exact ⟨some 1, rfl⟩)
    rfl (by decide)
  exact ⟨hA.1.trans (by decide), hA.2, hB.1.trans (by decide), hB.2.1, hB.2.2⟩

end VsCodePostgres
